import Mathlib

/-!
Shallow embedding of the core of the media upload service
(bounded video queue, upload protocol handler, dedup registry,
dead-letter queue, retry engine, atomic file persister), translated
from the TypeScript sources, together with theorems settling the
spec claims about them.
-/

set_option maxRecDepth 4096

namespace MediaUpload

/-- A byte buffer (Node `Buffer`) as a list of byte values. -/
abbrev Bytes := List Nat

/-- Bytes of an ASCII string, as `Buffer.from(s)` of an ASCII string. -/
def strBytes (s : String) : Bytes := s.toList.map Char.toNat

/-! ### MD5 (`crypto.createHash('md5')`), used by the upload handler
and the producer for integrity checking and deduplication. -/

/-- Truncate to a 32-bit word. -/
def w32 (n : Nat) : Nat := n % 4294967296

/-- Bitwise complement on 32-bit words. -/
def bnot32 (n : Nat) : Nat := 4294967295 - w32 n

/-- 32-bit left rotation. The two summands occupy disjoint bit ranges,
so addition coincides with bitwise or. -/
def rotl32 (x c : Nat) : Nat := w32 (x * 2 ^ c) + (w32 x) / 2 ^ (32 - c)

/-- The 64 MD5 sine-derived constants. -/
def md5K : List Nat :=
  [0xd76aa478, 0xe8c7b756, 0x242070db, 0xc1bdceee,
   0xf57c0faf, 0x4787c62a, 0xa8304613, 0xfd469501,
   0x698098d8, 0x8b44f7af, 0xffff5bb1, 0x895cd7be,
   0x6b901122, 0xfd987193, 0xa679438e, 0x49b40821,
   0xf61e2562, 0xc040b340, 0x265e5a51, 0xe9b6c7aa,
   0xd62f105d, 0x02441453, 0xd8a1e681, 0xe7d3fbc8,
   0x21e1cde6, 0xc33707d6, 0xf4d50d87, 0x455a14ed,
   0xa9e3e905, 0xfcefa3f8, 0x676f02d9, 0x8d2a4c8a,
   0xfffa3942, 0x8771f681, 0x6d9d6122, 0xfde5380c,
   0xa4beea44, 0x4bdecfa9, 0xf6bb4b60, 0xbebfbc70,
   0x289b7ec6, 0xeaa127fa, 0xd4ef3085, 0x04881d05,
   0xd9d4d039, 0xe6db99e5, 0x1fa27cf8, 0xc4ac5665,
   0xf4292244, 0x432aff97, 0xab9423a7, 0xfc93a039,
   0x655b59c3, 0x8f0ccc92, 0xffeff47d, 0x85845dd1,
   0x6fa87e4f, 0xfe2ce6e0, 0xa3014314, 0x4e0811a1,
   0xf7537e82, 0xbd3af235, 0x2ad7d2bb, 0xeb86d391]

/-- The 64 MD5 per-round rotation amounts. -/
def md5S : List Nat :=
  [7, 12, 17, 22, 7, 12, 17, 22, 7, 12, 17, 22, 7, 12, 17, 22,
   5, 9, 14, 20, 5, 9, 14, 20, 5, 9, 14, 20, 5, 9, 14, 20,
   4, 11, 16, 23, 4, 11, 16, 23, 4, 11, 16, 23, 4, 11, 16, 23,
   6, 10, 15, 21, 6, 10, 15, 21, 6, 10, 15, 21, 6, 10, 15, 21]

/-- MD5 round function for step `i` on words `b c d`. -/
def md5F (i b c d : Nat) : Nat :=
  if i < 16 then Nat.lor (Nat.land b c) (Nat.land (bnot32 b) d)
  else if i < 32 then Nat.lor (Nat.land d b) (Nat.land (bnot32 d) c)
  else if i < 48 then Nat.xor b (Nat.xor c d)
  else Nat.xor c (Nat.lor b (bnot32 d))

/-- MD5 message-word index for step `i`. -/
def md5G (i : Nat) : Nat :=
  if i < 16 then i
  else if i < 32 then (5 * i + 1) % 16
  else if i < 48 then (3 * i + 5) % 16
  else (7 * i) % 16

/-- One MD5 step applied to the state `(a, b, c, d)`. -/
def md5Step (m : List Nat) (st : Nat × Nat × Nat × Nat) (i : Nat) :
    Nat × Nat × Nat × Nat :=
  let (a, b, c, d) := st
  let f := w32 (md5F i b c d + a + md5K.getD i 0 + m.getD (md5G i) 0)
  (d, w32 (b + rotl32 f (md5S.getD i 0)), b, c)

/-- Process one 16-word block, updating the running digest state. -/
def md5Block (st : Nat × Nat × Nat × Nat) (m : List Nat) :
    Nat × Nat × Nat × Nat :=
  let (a0, b0, c0, d0) := st
  let (a, b, c, d) := (List.range 64).foldl (md5Step m) (a0, b0, c0, d0)
  (w32 (a0 + a), w32 (b0 + b), w32 (c0 + c), w32 (d0 + d))

/-- MD5 padding: append 0x80, zero-fill to 56 mod 64, then the original
bit length as eight little-endian bytes. -/
def md5Pad (msg : Bytes) : Bytes :=
  let len := msg.length
  let zeros := (120 - ((len + 1) % 64)) % 64
  msg ++ [0x80] ++ List.replicate zeros 0 ++
    (List.range 8).map (fun i => (len * 8) / 2 ^ (8 * i) % 256)

/-- Little-endian 32-bit words of a padded message. -/
def md5Words (padded : Bytes) : List Nat :=
  (List.range (padded.length / 4)).map fun j =>
    padded.getD (4 * j) 0 + 256 * padded.getD (4 * j + 1) 0 +
      65536 * padded.getD (4 * j + 2) 0 + 16777216 * padded.getD (4 * j + 3) 0

/-- The four little-endian bytes of a 32-bit word. -/
def wordLEBytes (w : Nat) : List Nat :=
  [w % 256, w / 256 % 256, w / 65536 % 256, w / 16777216 % 256]

/-- A hex digit character. -/
def hexDigit (n : Nat) : Char :=
  if n < 10 then Char.ofNat (48 + n) else Char.ofNat (87 + n)

/-- Two lowercase hex characters of one byte. -/
def byteHex (b : Nat) : String :=
  String.mk [hexDigit (b / 16), hexDigit (b % 16)]

/-- MD5 digest of a byte buffer as a lowercase hex string, as
`crypto.createHash('md5').update(buf).digest('hex')`. -/
def md5Hex (msg : Bytes) : String :=
  let words := md5Words (md5Pad msg)
  let blocks := (List.range (words.length / 16)).map fun b =>
    (List.range 16).map fun j => words.getD (16 * b + j) 0
  let (a, b, c, d) :=
    blocks.foldl md5Block (0x67452301, 0xefcdab89, 0x98badcfe, 0x10325476)
  String.join ((wordLEBytes a ++ wordLEBytes b ++ wordLEBytes c ++
    wordLEBytes d).map byteHex)

/-! ### Bounded queue (`consumer/src/queue.ts`, class `VideoQueue`) -/

/-- A queued video job (`interface VideoJob`). -/
structure VideoJob where
  id : String
  filename : String
  data : Bytes
  producerId : Nat
  timestamp : Nat
  md5Hash : Option String
deriving DecidableEq

/-- The payload `enqueue` receives (`Omit<VideoJob, 'id' | 'timestamp'>`):
the id and timestamp are generated inside `enqueue`. -/
structure NewJob where
  filename : String
  data : Bytes
  producerId : Nat
  md5Hash : Option String
deriving DecidableEq

/-- State of `class VideoQueue`. Each suspended `dequeueAsync` caller's
resolve callback is modelled by a caller identifier in `waiters`. -/
structure VideoQueue where
  queue : List VideoJob
  maxSize : Nat
  waiters : List Nat
  isShuttingDown : Bool
deriving DecidableEq

/-- A freshly constructed queue of the given capacity. -/
def VideoQueue.mk0 (maxSize : Nat) : VideoQueue := ⟨[], maxSize, [], false⟩

/-- `isFull()`: `queue.length >= maxSize`. -/
def VideoQueue.isFull (q : VideoQueue) : Bool := q.maxSize ≤ q.queue.length

/-- `isEmpty()`: `queue.length === 0`. -/
def VideoQueue.isEmpty (q : VideoQueue) : Bool := q.queue.length == 0

/-- `getUtilization()`: size / capacity, `1.0` when the capacity is `0`. -/
def VideoQueue.getUtilization (q : VideoQueue) : ℚ :=
  if q.maxSize = 0 then 1 else (q.queue.length : ℚ) / (q.maxSize : ℚ)

/-- A promise resolution delivered to a suspended `dequeueAsync` caller:
`job = none` models resolving with `null`. -/
structure Resolution where
  waiter : Nat
  job : Option VideoJob
deriving DecidableEq

/-- `enqueue(job)`. `freshId` models the generated `uuidv4()` and `now`
the `Date.now()` timestamp. Returns the boolean result, the new state,
and the resolutions delivered to woken waiters. -/
def VideoQueue.enqueue (q : VideoQueue) (nj : NewJob) (freshId : String)
    (now : Nat) : Bool × VideoQueue × List Resolution :=
  if q.isFull then (false, q, [])
  else
    let fullJob : VideoJob :=
      ⟨freshId, nj.filename, nj.data, nj.producerId, now, nj.md5Hash⟩
    let q1 : VideoQueue := { q with queue := q.queue ++ [fullJob] }
    match q1.waiters with
    | [] => (true, q1, [])
    | w :: ws =>
      match q1.queue with
      | [] => (true, { q1 with queue := [], waiters := ws }, [⟨w, none⟩])
      | j :: rest => (true, { q1 with queue := rest, waiters := ws }, [⟨w, some j⟩])

/-- `dequeue()` (non-blocking): `null` when empty, else the head. -/
def VideoQueue.dequeue (q : VideoQueue) : Option VideoJob × VideoQueue :=
  match q.queue with
  | [] => (none, q)
  | j :: rest => (some j, { q with queue := rest })

/-- What a `dequeueAsync()` call does right away: either its promise is
already resolved to a value, or the caller is suspended in `waiters`. -/
inductive DequeueOutcome where
  | value : Option VideoJob → DequeueOutcome
  | suspended : DequeueOutcome
deriving DecidableEq

/-- `dequeueAsync()`, with `wid` identifying the calling consumer's
resolve callback. -/
def VideoQueue.dequeueAsync (q : VideoQueue) (wid : Nat) :
    DequeueOutcome × VideoQueue :=
  match q.queue with
  | j :: rest => (.value (some j), { q with queue := rest })
  | [] =>
    if q.isShuttingDown then (.value none, q)
    else (.suspended, { q with waiters := q.waiters ++ [wid] })

/-- `shutdown()`: sets the flag and resolves every waiter with `null`. -/
def VideoQueue.shutdown (q : VideoQueue) : VideoQueue × List Resolution :=
  ({ q with isShuttingDown := true, waiters := [] },
   q.waiters.map fun w => ⟨w, none⟩)

/-- One operation of a client session against the queue. -/
inductive QueueOp where
  | enq : NewJob → String → Nat → QueueOp
  | deq : QueueOp
  | deqAsync : Nat → QueueOp
  | shut : QueueOp

/-- Apply one operation, keeping only the queue state. -/
def applyOp (q : VideoQueue) : QueueOp → VideoQueue
  | .enq nj id now => (q.enqueue nj id now).2.1
  | .deq => (q.dequeue).2
  | .deqAsync wid => (q.dequeueAsync wid).2
  | .shut => (q.shutdown).1

/-- Run a sequence of operations from a starting state. -/
def runOps (q : VideoQueue) (ops : List QueueOp) : VideoQueue :=
  ops.foldl applyOp q

/-! ### Dedup registry (`consumer/src/video-registry.ts`, class
`VideoRegistry`). Its JSON-file persistence rewrites the whole table
after each mutation and is not part of what the claims observe; the
in-memory `Map` is modelled as an association list with unique keys
maintained by `set`. The `fs.existsSync` oracle is a parameter. -/

/-- `interface VideoEntry`; `uploadedAt` is the epoch timestamp of the
`Date` the code stores. -/
structure VideoEntry where
  filename : String
  uploadedAt : Nat
  path : String
  producerId : Nat
deriving DecidableEq

/-- The registry's `Map<string, VideoEntry>`. -/
abbrev Registry := List (String × VideoEntry)

namespace Registry

/-- `Map.get`. -/
def getEntry (reg : Registry) (hash : String) : Option VideoEntry :=
  (reg.find? fun p => p.1 == hash).map (·.2)

/-- `Map.delete`. -/
def erase (reg : Registry) (hash : String) : Registry :=
  reg.filter fun p => !(p.1 == hash)

/-- `Map.set`: bind `hash` to `e`, replacing any previous binding. (The
`Map`'s iteration order is observed by no claim, so the binding is kept
at the front.) -/
def set (reg : Registry) (hash : String) (e : VideoEntry) : Registry :=
  (hash, e) :: erase reg hash

/-- `isDuplicate(hash)`: a hit whose entry has a real path is checked
against the filesystem (`fsE`); a missing file evicts the entry and
reports no duplicate. Entries with an empty or `'pending'` path skip
the existence check. Returns the answer and the possibly-updated map. -/
def isDuplicate (fsE : String → Bool) (reg : Registry) (hash : String) :
    Bool × Registry :=
  match getEntry reg hash with
  | none => (false, reg)
  | some e =>
    if e.path ≠ "" ∧ e.path ≠ "pending" then
      if fsE e.path then (true, reg)
      else (false, erase reg hash)
    else (true, reg)

/-- `register(hash, filename, path, producerId)`; `now` is the stored
`new Date()` timestamp. -/
def register (reg : Registry) (hash filename path : String)
    (producerId now : Nat) : Registry :=
  set reg hash ⟨filename, now, path, producerId⟩

/-- `updatePath(hash, path)`. -/
def updatePath (reg : Registry) (hash path : String) : Registry :=
  match getEntry reg hash with
  | none => reg
  | some e => set reg hash { e with path := path }

/-- Whether `validateAndCleanup` treats an entry as stale: a truthy,
non-placeholder path whose file is gone. -/
def stale (fsE : String → Bool) (e : VideoEntry) : Prop :=
  e.path ≠ "" ∧ e.path ≠ "pending" ∧ fsE e.path = false

instance (fsE : String → Bool) (e : VideoEntry) : Decidable (stale fsE e) := by
  unfold stale; infer_instance

/-- `validateAndCleanup()`: sweep out every stale entry, returning the
number removed and the cleaned map. -/
def validateAndCleanup (fsE : String → Bool) (reg : Registry) :
    Nat × Registry :=
  ((reg.filter fun p => stale fsE p.2).length,
   reg.filter fun p => ¬ stale fsE p.2)

end Registry

/-! ### Dead-letter queue (`consumer/src/core/dead-letter-queue.ts`,
class `DeadLetterQueue`) -/

/-- `interface FailedJob`; `failedAt` is the epoch timestamp of the
stored `new Date()`. -/
structure FailedJob where
  job : VideoJob
  error : String
  failedAt : Nat
  attempts : Nat
deriving DecidableEq

namespace DeadLetterQueue

/-- `addToQueue(job, error, attempts)`; `now` is the `new Date()`. -/
def addToQueue (dlq : List FailedJob) (job : VideoJob) (err : String)
    (attempts now : Nat) : List FailedJob :=
  dlq ++ [⟨job, err, now, attempts⟩]

/-- `removeById(jobId)`: splice out the first record with that job id,
reporting whether one was found. -/
def removeById (dlq : List FailedJob) (jobId : String) :
    Bool × List FailedJob :=
  match dlq.findIdx? (fun f => f.job.id == jobId) with
  | none => (false, dlq)
  | some i => (true, dlq.take i ++ dlq.drop (i + 1))

/-- `clear()`: empties the store. The TypeScript method's return type is
`void`; the removed count is computed only for a log line, so the value
the caller receives is modelled as `none` (a numeric return would be
`some n`). -/
def clear (dlq : List FailedJob) : Option Nat × List FailedJob :=
  (none, [])

/-- What the spec's words `clear() -> count` describe: the same sweep
returning the number of records removed. Stated for comparison with
`clear` above. -/
def clearSpec (dlq : List FailedJob) : Option Nat × List FailedJob :=
  (some dlq.length, [])

end DeadLetterQueue

/-! ### REST re-queue endpoint (`consumer/src/api-server.ts`,
`POST /api/dlq/retry/:jobId`) -/

/-- The JSON reply, reduced to the HTTP status and message the handler
sends. -/
structure RetryResponse where
  status : Nat
  message : String
deriving DecidableEq

/-- The retry handler: look the job up in the DLQ, refuse when the queue
is full, otherwise enqueue a copy of its payload and, if that reported
success, remove the DLQ record. -/
def retryDlqJob (jobId : String) (dlq : List FailedJob) (q : VideoQueue)
    (freshId : String) (now : Nat) :
    RetryResponse × List FailedJob × VideoQueue × List Resolution :=
  match dlq.find? (fun f => f.job.id == jobId) with
  | none => (⟨404, "Job not found in DLQ"⟩, dlq, q, [])
  | some failedJob =>
    if q.isFull then (⟨503, "Queue is full, cannot retry job"⟩, dlq, q, [])
    else
      let (added, q1, res) := q.enqueue
        ⟨failedJob.job.filename, failedJob.job.data,
         failedJob.job.producerId, failedJob.job.md5Hash⟩ freshId now
      if added then
        (⟨200, "Job re-queued successfully"⟩,
         (DeadLetterQueue.removeById dlq jobId).2, q1, res)
      else (⟨503, "Failed to re-enqueue job"⟩, dlq, q1, res)

/-! ### Upload protocol handler (`consumer/src/grpc-server.ts`,
function `uploadVideo`). The `data` events accumulate chunks and
metadata; the `end` handler below does all the deciding. -/

/-- The gRPC reply (`interface UploadResponse`). -/
structure UploadResponse where
  success : Bool
  message : String
  video_id : String
  queue_full : Bool
deriving DecidableEq

/-- What one `uploadVideo` call has accumulated when its stream ends:
the data chunk payloads in arrival order and the metadata fields.
`expectedHash` is the handler's string variable, `""` when the producer
declared no hash (the code tests it for truthiness). -/
structure UploadState where
  chunks : List Bytes
  filename : String
  producerId : Nat
  expectedHash : String
deriving DecidableEq

/-- The tail of the `end` handler shared by both hash branches: attempt
to enqueue; on `false` reply queue-full, on `true` register the hash
(when one was declared) with the placeholder path `'pending'` and reply
success with the provisional id `'pending'`. -/
def uploadEnqueue (st : UploadState) (completeVideo : Bytes)
    (reg : Registry) (q : VideoQueue) (freshId : String) (now regNow : Nat) :
    UploadResponse × Registry × VideoQueue × List Resolution :=
  let nj : NewJob := ⟨st.filename, completeVideo, st.producerId,
    if st.expectedHash ≠ "" then some st.expectedHash else none⟩
  let (added, q1, res) := q.enqueue nj freshId now
  if ¬ added then
    (⟨false, "Server queue is full, please try again later", "", true⟩,
     reg, q1, res)
  else
    let reg1 := if st.expectedHash ≠ "" then
      Registry.register reg st.expectedHash st.filename "pending"
        st.producerId regNow
      else reg
    (⟨true, "Video queued successfully", "pending", false⟩, reg1, q1, res)

/-- The `call.on('end', ...)` handler: reassemble, verify the MD5 when
one was declared, check the dedup registry, and hand over to
`uploadEnqueue`. `fsE` is the filesystem-existence oracle the registry
consults, `fmtTime` renders the stored timestamp (`toLocaleString`),
`freshId` and `now` feed the queue's id and timestamp generation, and
`regNow` the registry's `new Date()`. Returns the reply and the new
registry, queue and waiter resolutions. -/
def uploadVideoEnd (st : UploadState) (reg : Registry) (q : VideoQueue)
    (fsE : String → Bool) (fmtTime : Nat → String) (freshId : String)
    (now regNow : Nat) :
    UploadResponse × Registry × VideoQueue × List Resolution :=
  let completeVideo := st.chunks.flatten
  if st.expectedHash ≠ "" then
    let calculatedHash := md5Hex completeVideo
    if calculatedHash ≠ st.expectedHash then
      (⟨false, "Data integrity check failed: MD5 hash mismatch", "", false⟩,
       reg, q, [])
    else
      let (dup, reg1) := Registry.isDuplicate fsE reg st.expectedHash
      if dup then
        let existing := Registry.getEntry reg1 st.expectedHash
        let uploadTime := match existing with
          | some e => fmtTime e.uploadedAt
          | none => "unknown time"
        let origName := match existing with
          | some e => e.filename
          | none => "undefined"
        (⟨false, "Duplicate video detected. Original file: " ++ origName ++
          " (uploaded at " ++ uploadTime ++ ")", "", false⟩, reg1, q, [])
      else uploadEnqueue st completeVideo reg1 q freshId now regNow
  else uploadEnqueue st completeVideo reg q freshId now regNow

/-! ### Atomic file persister (`consumer/src/file-handler.ts`, class
`FileHandler`). The filesystem is an association list from path to
content; I/O faults are injected through `WriteBehavior`. -/

/-- The filesystem's visible contents: path to byte content. -/
abbrev FS := List (String × Bytes)

namespace FS

/-- Content at a path. -/
def lookup (fs : FS) (p : String) : Option Bytes :=
  (fs.find? fun e => e.1 == p).map (·.2)

/-- `fs.existsSync`. -/
def existsSync (fs : FS) (p : String) : Bool := (lookup fs p).isSome

/-- `fs.promises.unlink`. -/
def erase (fs : FS) (p : String) : FS := fs.filter fun e => !(e.1 == p)

/-- `fs.promises.writeFile`: create or replace the file at `p`. (A
directory listing's order is observed by no claim, so the new binding
is kept at the front.) -/
def write (fs : FS) (p : String) (bs : Bytes) : FS := (p, bs) :: erase fs p

/-- `fs.promises.rename src dst`. -/
def rename (fs : FS) (src dst : String) : FS :=
  match lookup fs src with
  | none => fs
  | some bs => write (erase fs src) dst bs

end FS

/-- `SaveResult` (`interface SaveResult`); `err` is the optional
`error` message field. -/
structure SaveResult where
  success : Bool
  videoId : String
  filepath : String
  savedFilename : String
  err : Option String
deriving DecidableEq

/-- The sanitization in `generateUniqueFilename`:
`originalName.replace(/[^a-zA-Z0-9._-]/g, '_')`. -/
def sanitizeFilename (s : String) : String :=
  String.mk (s.toList.map fun c =>
    if c.isAlphanum ∨ c = '.' ∨ c = '_' ∨ c = '-' then c else '_')

/-- `generateUniqueFilename(videoId, originalName)`:
8-char id prefix, `Date.now()` timestamp, sanitized original name. -/
def generateUniqueFilename (videoId origName : String) (now : Nat) : String :=
  (videoId.take 8) ++ "_" ++ toString now ++ "_" ++ sanitizeFilename origName

/-- Injected I/O outcomes for one `saveVideo` run: `writeOutcome = none`
models `writeFile` throwing (nothing lands on disk); `some bs` models the
bytes that actually land in the temporary file (normally the payload, a
different list models a torn write for the validation step to catch);
`renameOk = false` models `rename` throwing with the filesystem
untouched. -/
structure WriteBehavior where
  writeOutcome : Option Bytes
  renameOk : Bool

/-- The final on-disk path `saveVideo` computes:
`path.join(uploadDir, savedFilename)`. -/
def finalPathOf (uploadDir videoId origFilename : String) (now : Nat) :
    String :=
  uploadDir ++ "/" ++ generateUniqueFilename videoId origFilename now

/-- `validateFile(filepath, expectedSize)` as `saveVideo` calls it (no
hash argument): the file exists and its size equals `expectedSize`. -/
def validateFile (fs : FS) (filepath : String) (expectedSize : Nat) : Bool :=
  match FS.lookup fs filepath with
  | none => false
  | some bs => bs.length == expectedSize

/-- `saveVideo(videoData, videoId, originalFilename)`. A thrown step is
caught by the surrounding try/catch, which only returns the failure
result: the explicit `unlink` happens solely in the failed-validation
branch. The fixed error strings stand for the caught exceptions'
messages. -/
def saveVideo (fs : FS) (beh : WriteBehavior) (uploadDir : String)
    (videoData : Bytes) (videoId origFilename : String) (now : Nat) :
    SaveResult × FS :=
  let savedFilename := generateUniqueFilename videoId origFilename now
  let finalPath := finalPathOf uploadDir videoId origFilename now
  let tempPath := finalPath ++ ".tmp"
  match beh.writeOutcome with
  | none => (⟨false, videoId, "", "", some "write failed"⟩, fs)
  | some written =>
    let fs1 := FS.write fs tempPath written
    if validateFile fs1 tempPath videoData.length then
      if beh.renameOk then
        (⟨true, videoId, finalPath, savedFilename, none⟩,
         FS.rename fs1 tempPath finalPath)
      else (⟨false, videoId, "", "", some "rename failed"⟩, fs1)
    else
      (⟨false, videoId, "", "", some "File validation failed after write"⟩,
       FS.erase fs1 tempPath)

/-! ### Retry engine and worker loop
(`consumer/src/services/consumer.ts`). `saveVideo`'s outcome per
attempt is injected as `saveErr : Nat → Option String` (`none` means the
save succeeded, `some msg` the failure message of that attempt). The
success branch additionally updates the registry path and generates
derived media; the derived-media tooling is an external transcoder and
none of it feeds back into the retry decision, so only the effects the
retry logic itself produces — sleeps, DLQ insertions, the thrown or
normal outcome — are tracked here. -/

/-- The observable effects of one `processJobWithRetry` call. -/
structure RetryTrace where
  outcome : Except String Unit
  sleeps : List Nat
  dlqAdds : List FailedJob
  attemptsMade : Nat

/-- The `for (attempt = 1; attempt <= MAX_RETRIES; attempt++)` loop,
structurally recursive on the remaining iterations. On a failed
non-final attempt it sleeps `initialDelay * 2 ^ (attempt - 1)`
milliseconds and retries; on the final attempt it pushes the job with
the error and `maxRetries` into the DLQ and rethrows. -/
def retryLoop (job : VideoJob) (saveErr : Nat → Option String)
    (maxRetries initialDelay now : Nat) : Nat → Nat → RetryTrace
  | 0, _ => ⟨.ok (), [], [], 0⟩
  | fuel + 1, attempt =>
    match saveErr attempt with
    | none => ⟨.ok (), [], [], 1⟩
    | some msg =>
      if attempt < maxRetries then
        let delay := initialDelay * 2 ^ (attempt - 1)
        let t := retryLoop job saveErr maxRetries initialDelay now fuel
          (attempt + 1)
        ⟨t.outcome, delay :: t.sleeps, t.dlqAdds, t.attemptsMade + 1⟩
      else ⟨.error msg, [], [⟨job, msg, now, maxRetries⟩], 1⟩

/-- `processJobWithRetry(job, fileHandler, logger)`. -/
def processJobWithRetry (job : VideoJob) (saveErr : Nat → Option String)
    (maxRetries initialDelay now : Nat) : RetryTrace :=
  retryLoop job saveErr maxRetries initialDelay now maxRetries 1

/-- The body of `startConsumerThread`'s loop over the jobs one worker
dequeues: each `processJobWithRetry` call sits in a try/catch whose
catch only logs, so the loop moves to the next job whatever the
outcome. Returns how many jobs were processed and the accumulated DLQ
insertions. -/
def runWorker (jobs : List VideoJob) (saveErr : VideoJob → Nat → Option String)
    (maxRetries initialDelay now : Nat) : Nat × List FailedJob :=
  jobs.foldl
    (fun acc job =>
      let t := processJobWithRetry job (saveErr job) maxRetries initialDelay now
      (acc.1 + 1, acc.2 ++ t.dlqAdds))
    (0, [])

/-- The REST handler `DELETE /api/dlq/clear` (`consumer/src/api-server.ts`):
it reads the size before clearing and reports it as `clearedJobs`. -/
def clearDlqEndpoint (dlq : List FailedJob) : Nat × List FailedJob :=
  let previousSize := dlq.length
  let (_, dlq1) := DeadLetterQueue.clear dlq
  (previousSize, dlq1)

/-- A concrete job used by closed statements. -/
def sampleJob : VideoJob := ⟨"job-1", "v.mp4", [0, 1], 1, 0, none⟩

/-- A concrete DLQ record used by closed statements. -/
def sampleFailed : FailedJob := ⟨sampleJob, "disk full", 0, 3⟩

/-! ## Theorems -/

/-- Generalisation of the worker loop's counter: the fold adds one per
job whatever `processJobWithRetry` did. -/
theorem runWorker_go (jobs : List VideoJob)
    (saveErr : VideoJob → Nat → Option String) (m i n : Nat)
    (acc : Nat × List FailedJob) :
    (jobs.foldl
      (fun acc job =>
        let t := processJobWithRetry job (saveErr job) m i n
        (acc.1 + 1, acc.2 ++ t.dlqAdds)) acc).1 = acc.1 + jobs.length := by
  induction jobs generalizing acc with
  | nil => simp
  | cons j js ih => simp [List.foldl, ih]; omega

/-- The worker loop processes every dequeued job: a failed job never
ends the loop early. -/
theorem runWorker_length (jobs : List VideoJob)
    (saveErr : VideoJob → Nat → Option String) (m i n : Nat) :
    (runWorker jobs saveErr m i n).1 = jobs.length := by
  simpa [runWorker] using runWorker_go jobs saveErr m i n (0, [])

/-- C5: a job whose persistence fails on every attempt, with
`MAX_RETRIES = 3` and `INITIAL_DELAY_MS = 1000`, sleeps 1000 ms then
2000 ms (`INITIAL_DELAY * 2 ^ (attempt - 1)` after each non-final
failure), makes exactly 3 attempts, lands in the DLQ with
`attempts = 3`, and the worker loop that called it continues with the
remaining jobs rather than terminating. -/
theorem claimC5_retry_backoff_dlq (job : VideoJob) (msg : String) (now : Nat)
    (jobs : List VideoJob) (saveErr : VideoJob → Nat → Option String) :
    (processJobWithRetry job (fun _ => some msg) 3 1000 now).sleeps =
        [1000, 2000] ∧
    (processJobWithRetry job (fun _ => some msg) 3 1000 now).attemptsMade = 3 ∧
    (processJobWithRetry job (fun _ => some msg) 3 1000 now).dlqAdds =
        [⟨job, msg, now, 3⟩] ∧
    (processJobWithRetry job (fun _ => some msg) 3 1000 now).outcome =
        .error msg ∧
    (runWorker jobs saveErr 3 1000 now).1 = jobs.length :=
  ⟨rfl, rfl, rfl, rfl, runWorker_length jobs saveErr 3 1000 now⟩

/-- C9 counterexample: on a store holding one record, `clear` empties
the store but hands its caller no removed count — the spec-worded
variant would return `some 1`. -/
theorem claimC9_counterexample :
    (DeadLetterQueue.clear [sampleFailed]).2 = [] ∧
    (DeadLetterQueue.clear [sampleFailed]).1 = none ∧
    (DeadLetterQueue.clear [sampleFailed]).1 ≠
      (DeadLetterQueue.clearSpec [sampleFailed]).1 := by
  refine ⟨rfl, rfl, ?_⟩
  simp [DeadLetterQueue.clear, DeadLetterQueue.clearSpec]

/-- C9 (amended): `clear` removes every record from the store but
returns no value; the removed count is only logged. The REST clear
endpoint reports the count separately, by reading the size before
clearing. -/
theorem claimC9_clear (dlq : List FailedJob) :
    (DeadLetterQueue.clear dlq).2 = [] ∧
    (DeadLetterQueue.clear dlq).1 = none ∧
    clearDlqEndpoint dlq = (dlq.length, []) :=
  ⟨rfl, rfl, rfl⟩

/-- C8: on a queue of capacity 2, enqueues of A then B succeed, a third
enqueue C returns `false` leaving the state unchanged, and the
subsequent dequeues return A then B in FIFO order. -/
theorem claimC8_fifo_capacity_two :
    (((VideoQueue.mk0 2).enqueue ⟨"A.mp4", [10], 1, none⟩ "id-a" 1).1 = true) ∧
    ((((VideoQueue.mk0 2).enqueue ⟨"A.mp4", [10], 1, none⟩ "id-a" 1).2.1.enqueue
        ⟨"B.mp4", [11], 2, none⟩ "id-b" 2).1 = true) ∧
    (((((VideoQueue.mk0 2).enqueue ⟨"A.mp4", [10], 1, none⟩ "id-a" 1).2.1.enqueue
        ⟨"B.mp4", [11], 2, none⟩ "id-b" 2).2.1.enqueue
        ⟨"C.mp4", [12], 3, none⟩ "id-c" 3).1 = false) ∧
    (((((VideoQueue.mk0 2).enqueue ⟨"A.mp4", [10], 1, none⟩ "id-a" 1).2.1.enqueue
        ⟨"B.mp4", [11], 2, none⟩ "id-b" 2).2.1.enqueue
        ⟨"C.mp4", [12], 3, none⟩ "id-c" 3).2.1 =
      (((VideoQueue.mk0 2).enqueue ⟨"A.mp4", [10], 1, none⟩ "id-a" 1).2.1.enqueue
        ⟨"B.mp4", [11], 2, none⟩ "id-b" 2).2.1) ∧
    ((((((VideoQueue.mk0 2).enqueue ⟨"A.mp4", [10], 1, none⟩ "id-a" 1).2.1.enqueue
        ⟨"B.mp4", [11], 2, none⟩ "id-b" 2).2.1.enqueue
        ⟨"C.mp4", [12], 3, none⟩ "id-c" 3).2.1.dequeueAsync 0).1 =
      .value (some ⟨"id-a", "A.mp4", [10], 1, 1, none⟩)) ∧
    (((((((VideoQueue.mk0 2).enqueue ⟨"A.mp4", [10], 1, none⟩ "id-a" 1).2.1.enqueue
        ⟨"B.mp4", [11], 2, none⟩ "id-b" 2).2.1.enqueue
        ⟨"C.mp4", [12], 3, none⟩ "id-c" 3).2.1.dequeueAsync 0).2.dequeueAsync 0).1 =
      .value (some ⟨"id-b", "B.mp4", [11], 2, 2, none⟩)) := by
  decide

/-- `enqueue` never changes the capacity. -/
theorem enqueue_maxSize (q : VideoQueue) (nj : NewJob) (id : String)
    (now : Nat) : (q.enqueue nj id now).2.1.maxSize = q.maxSize := by
  unfold VideoQueue.enqueue
  split
  · rfl
  · dsimp only
    split
    · rfl
    · split <;> rfl

/-- Each queue operation preserves the capacity. -/
theorem applyOp_maxSize (q : VideoQueue) (op : QueueOp) :
    (applyOp q op).maxSize = q.maxSize := by
  cases op with
  | enq nj id now => exact enqueue_maxSize q nj id now
  | deq =>
    show (q.dequeue).2.maxSize = q.maxSize
    unfold VideoQueue.dequeue
    split <;> rfl
  | deqAsync wid =>
    show (q.dequeueAsync wid).2.maxSize = q.maxSize
    unfold VideoQueue.dequeueAsync
    split
    · rfl
    · split <;> rfl
  | shut => rfl

/-- Each queue operation keeps the job count within the capacity. -/
theorem applyOp_length_le (q : VideoQueue) (op : QueueOp)
    (h : q.queue.length ≤ q.maxSize) :
    (applyOp q op).queue.length ≤ q.maxSize := by
  cases op with
  | enq nj id now =>
    show ((q.enqueue nj id now).2.1).queue.length ≤ q.maxSize
    unfold VideoQueue.enqueue
    split
    · exact h
    · next hfull =>
      simp only [VideoQueue.isFull, decide_eq_true_eq] at hfull
      dsimp only
      split
      · simpa using Nat.lt_of_not_le hfull
      · split
        · simp
        · next heq =>
          have : q.queue.length + 1 ≤ q.maxSize := Nat.lt_of_not_le hfull
          have hlen := congrArg List.length heq
          simp at hlen
          simp
          omega
  | deq =>
    show (q.dequeue).2.queue.length ≤ q.maxSize
    unfold VideoQueue.dequeue
    split
    · exact h
    · next heq =>
      have hlen := congrArg List.length heq
      simp at hlen
      simp
      omega
  | deqAsync wid =>
    show (q.dequeueAsync wid).2.queue.length ≤ q.maxSize
    unfold VideoQueue.dequeueAsync
    split
    · next heq =>
      have hlen := congrArg List.length heq
      simp at hlen
      simp
      omega
    · split <;> simpa using h
  | shut => exact h

/-- Every state reached from a fresh queue of capacity `C` keeps its
capacity and at most `C` jobs. -/
theorem runOps_inv (C : Nat) (ops : List QueueOp) :
    (runOps (VideoQueue.mk0 C) ops).maxSize = C ∧
    (runOps (VideoQueue.mk0 C) ops).queue.length ≤ C := by
  suffices h : ∀ q : VideoQueue, q.queue.length ≤ q.maxSize →
      (runOps q ops).maxSize = q.maxSize ∧
      (runOps q ops).queue.length ≤ q.maxSize by
    simpa [VideoQueue.mk0] using h (VideoQueue.mk0 C) (by simp [VideoQueue.mk0])
  induction ops with
  | nil => exact fun q h => ⟨rfl, h⟩
  | cons op ops ih =>
    intro q h
    have h1 := applyOp_length_le q op h
    have h2 := applyOp_maxSize q op
    have := ih (applyOp q op) (h2 ▸ h1)
    simpa [runOps, List.foldl, h2] using this

/-- `enqueue` answers `false` exactly when the queue was full. -/
theorem enqueue_fst (q : VideoQueue) (nj : NewJob) (id : String)
    (now : Nat) : (q.enqueue nj id now).1 = !q.isFull := by
  unfold VideoQueue.enqueue
  split
  · next hfull => simp [hfull]
  · next hfull =>
    have hf : q.isFull = false := by simpa using hfull
    dsimp only
    split
    · simp [hf]
    · split <;> simp [hf]

/-- A full queue rejects the job with no side effect at all. -/
theorem enqueue_full_unchanged (q : VideoQueue) (nj : NewJob) (id : String)
    (now : Nat) (h : q.isFull = true) :
    q.enqueue nj id now = (false, q, []) := by
  simp [VideoQueue.enqueue, h]

/-- A rejected `enqueue` changes nothing, and acceptance is decided by
fullness at call time. -/
theorem enqueue_false_iff (q : VideoQueue) (nj : NewJob) (id : String)
    (now : Nat) :
    ((q.enqueue nj id now).1 = false ↔ q.maxSize ≤ q.queue.length) ∧
    ((q.enqueue nj id now).1 = false → (q.enqueue nj id now).2.1 = q) := by
  constructor
  · rw [enqueue_fst]
    simp [VideoQueue.isFull]
  · intro h
    rw [enqueue_fst] at h
    have hf : q.isFull = true := by simpa using h
    rw [enqueue_full_unchanged q nj id now hf]

/-- C1: for every sequence of queue operations on a queue constructed
with capacity `C`, the number of queued jobs never exceeds `C`;
`enqueue` returns `false` exactly when the size equals `C` at call
time, and a rejected `enqueue` leaves the whole queue state
unchanged. -/
theorem claimC1_bounded_queue (C : Nat) (ops : List QueueOp) (nj : NewJob)
    (id : String) (now : Nat) :
    (runOps (VideoQueue.mk0 C) ops).queue.length ≤ C ∧
    (((runOps (VideoQueue.mk0 C) ops).enqueue nj id now).1 = false ↔
      (runOps (VideoQueue.mk0 C) ops).queue.length = C) ∧
    (((runOps (VideoQueue.mk0 C) ops).enqueue nj id now).1 = false →
      ((runOps (VideoQueue.mk0 C) ops).enqueue nj id now).2.1 =
        runOps (VideoQueue.mk0 C) ops) := by
  obtain ⟨hmax, hlen⟩ := runOps_inv C ops
  obtain ⟨hiff, hunch⟩ :=
    enqueue_false_iff (runOps (VideoQueue.mk0 C) ops) nj id now
  refine ⟨hlen, ?_, hunch⟩
  rw [hiff, hmax]
  omega

/-- After the shutdown flag is set, `dequeueAsync` never suspends: it
returns the head while jobs remain and the `null` sentinel once the
queue is empty, and the flag stays set. -/
theorem dequeueAsync_after_shutdown (q : VideoQueue)
    (h : q.isShuttingDown = true) (wid : Nat) :
    (q.dequeueAsync wid).1 ≠ .suspended ∧
    (q.queue = [] → q.dequeueAsync wid = (.value none, q)) ∧
    (∀ j rest, q.queue = j :: rest →
      (q.dequeueAsync wid).1 = .value (some j)) ∧
    (q.dequeueAsync wid).2.isShuttingDown = true := by
  unfold VideoQueue.dequeueAsync
  match hq : q.queue with
  | j :: rest =>
    refine ⟨by simp, by simp, ?_, h⟩
    intro j2 rest2 he
    injection he with h1 _
    subst h1
    simp
  | [] =>
    rw [h]
    refine ⟨by simp, fun _ => rfl, ?_, by simp [h]⟩
    intro j rest he
    cases he

/-- C7: `shutdown()` resolves every currently suspended
`dequeue_blocking` caller with the `null` sentinel, each exactly once
(the waiter list holds distinct callers); afterwards no `dequeueAsync`
call ever suspends — it returns a remaining job while the queue is
non-empty and the sentinel once it is empty — and a second `shutdown()`
changes nothing and wakes no one. -/
theorem claimC7_shutdown (q : VideoQueue) (hnd : q.waiters.Nodup) :
    ((q.shutdown).2 = q.waiters.map fun w => (⟨w, none⟩ : Resolution)) ∧
    (∀ w ∈ q.waiters, (q.shutdown).2.count (⟨w, none⟩ : Resolution) = 1) ∧
    ((q.shutdown).1.waiters = [] ∧ (q.shutdown).1.isShuttingDown = true) ∧
    (∀ q2 : VideoQueue, q2.isShuttingDown = true → ∀ wid,
      (q2.dequeueAsync wid).1 ≠ .suspended ∧
      (q2.queue = [] → q2.dequeueAsync wid = (.value none, q2)) ∧
      (∀ j rest, q2.queue = j :: rest →
        (q2.dequeueAsync wid).1 = .value (some j)) ∧
      (q2.dequeueAsync wid).2.isShuttingDown = true) ∧
    ((q.shutdown).1.shutdown = ((q.shutdown).1, [])) := by
  refine ⟨rfl, ?_, ⟨rfl, rfl⟩, fun q2 h wid => dequeueAsync_after_shutdown q2 h wid, rfl⟩
  intro w hw
  show ((q.waiters.map fun w => (⟨w, none⟩ : Resolution)).count ⟨w, none⟩) = 1
  have hinj : Function.Injective fun w => (⟨w, none⟩ : Resolution) := by
    intro a b hab
    simpa [Resolution.mk.injEq] using hab
  rw [List.count_map_of_injective _ _ hinj]
  exact List.count_eq_one_of_mem hnd hw

/-- C7 witness: the shutdown guarantees evaluated on a queue holding
two suspended waiters. -/
theorem claimC7_shutdown_witness :
    ((VideoQueue.shutdown ⟨[], 2, [5, 7], false⟩).2 =
      ([5, 7] : List Nat).map fun w => (⟨w, none⟩ : Resolution)) ∧
    (∀ w ∈ ([5, 7] : List Nat),
      ((VideoQueue.shutdown ⟨[], 2, [5, 7], false⟩).2.count
        (⟨w, none⟩ : Resolution)) = 1) ∧
    ((VideoQueue.shutdown ⟨[], 2, [5, 7], false⟩).1.waiters = [] ∧
     (VideoQueue.shutdown ⟨[], 2, [5, 7], false⟩).1.isShuttingDown = true) ∧
    (∀ q2 : VideoQueue, q2.isShuttingDown = true → ∀ wid,
      (q2.dequeueAsync wid).1 ≠ .suspended ∧
      (q2.queue = [] → q2.dequeueAsync wid = (.value none, q2)) ∧
      (∀ j rest, q2.queue = j :: rest →
        (q2.dequeueAsync wid).1 = .value (some j)) ∧
      (q2.dequeueAsync wid).2.isShuttingDown = true) ∧
    ((VideoQueue.shutdown ⟨[], 2, [5, 7], false⟩).1.shutdown =
      ((VideoQueue.shutdown ⟨[], 2, [5, 7], false⟩).1, [])) :=
  claimC7_shutdown ⟨[], 2, [5, 7], false⟩ (by decide)

/-- A registry hit with the placeholder path skips the file-existence
check entirely: the answer is `true` and nothing is evicted. -/
theorem isDuplicate_pending (fsE : String → Bool) (reg : Registry)
    (hash : String) (e : VideoEntry)
    (he : Registry.getEntry reg hash = some e) (hp : e.path = "pending") :
    Registry.isDuplicate fsE reg hash = (true, reg) := by
  unfold Registry.isDuplicate
  rw [he]
  have h2 : ¬ (e.path ≠ "" ∧ e.path ≠ "pending") := by simp [hp]
  dsimp only
  rw [if_neg h2]

/-- C10: a registry entry whose `path` is the placeholder `'pending'`
is never treated as stale: `isDuplicate` answers `true` without
touching the registry, `validateAndCleanup` keeps the entry, and the
sweep removes exactly the entries with a real path whose file is
missing. -/
theorem claimC10_pending_not_evicted (fsE : String → Bool) (reg : Registry)
    (hash : String) (e : VideoEntry) (hp : e.path = "pending") :
    (Registry.getEntry reg hash = some e →
      Registry.isDuplicate fsE reg hash = (true, reg)) ∧
    ((hash, e) ∈ reg → (hash, e) ∈ (Registry.validateAndCleanup fsE reg).2) ∧
    (∀ p ∈ reg, (p ∈ (Registry.validateAndCleanup fsE reg).2 ↔
      ¬ (p.2.path ≠ "" ∧ p.2.path ≠ "pending" ∧ fsE p.2.path = false))) := by
  refine ⟨fun he => isDuplicate_pending fsE reg hash e he hp, ?_, ?_⟩
  · intro hm
    unfold Registry.validateAndCleanup
    simp only [List.mem_filter]
    refine ⟨hm, ?_⟩
    simp [Registry.stale, hp]
  · intro p hm
    unfold Registry.validateAndCleanup
    simp only [List.mem_filter]
    constructor
    · intro h
      simpa [Registry.stale] using of_decide_eq_true h.2
    · intro h
      refine ⟨hm, ?_⟩
      simp only [decide_eq_true_eq]
      simpa [Registry.stale] using h

/-- C10 witness: a placeholder entry next to a stale real-path entry;
the sweep drops only the stale one. -/
theorem claimC10_pending_not_evicted_witness :
    ((Registry.getEntry
        [("h1", ⟨"a.mp4", 0, "pending", 1⟩), ("h2", ⟨"b.mp4", 0, "/gone", 2⟩)]
        "h1" = some ⟨"a.mp4", 0, "pending", 1⟩ →
      Registry.isDuplicate (fun _ => false)
        [("h1", ⟨"a.mp4", 0, "pending", 1⟩), ("h2", ⟨"b.mp4", 0, "/gone", 2⟩)]
        "h1" =
        (true,
         [("h1", ⟨"a.mp4", 0, "pending", 1⟩), ("h2", ⟨"b.mp4", 0, "/gone", 2⟩)]))) ∧
    (("h1", (⟨"a.mp4", 0, "pending", 1⟩ : VideoEntry)) ∈
        ([("h1", ⟨"a.mp4", 0, "pending", 1⟩), ("h2", ⟨"b.mp4", 0, "/gone", 2⟩)] :
          Registry) →
      ("h1", (⟨"a.mp4", 0, "pending", 1⟩ : VideoEntry)) ∈
        (Registry.validateAndCleanup (fun _ => false)
          [("h1", ⟨"a.mp4", 0, "pending", 1⟩),
           ("h2", ⟨"b.mp4", 0, "/gone", 2⟩)]).2) ∧
    (∀ p ∈ ([("h1", ⟨"a.mp4", 0, "pending", 1⟩),
             ("h2", ⟨"b.mp4", 0, "/gone", 2⟩)] : Registry),
      (p ∈ (Registry.validateAndCleanup (fun _ => false)
          [("h1", ⟨"a.mp4", 0, "pending", 1⟩),
           ("h2", ⟨"b.mp4", 0, "/gone", 2⟩)]).2 ↔
        ¬ (p.2.path ≠ "" ∧ p.2.path ≠ "pending" ∧ (fun _ => false) p.2.path = false))) :=
  claimC10_pending_not_evicted (fun _ => false)
    [("h1", ⟨"a.mp4", 0, "pending", 1⟩), ("h2", ⟨"b.mp4", 0, "/gone", 2⟩)]
    "h1" ⟨"a.mp4", 0, "pending", 1⟩ rfl

/-- On a queue with free capacity and no suspended consumer, `enqueue`
appends the completed job and wakes no one. -/
theorem enqueue_not_full_no_waiters (q : VideoQueue) (nj : NewJob)
    (id : String) (now : Nat) (hf : q.isFull = false) (hw : q.waiters = []) :
    q.enqueue nj id now =
      (true,
       { q with queue := q.queue ++
          [⟨id, nj.filename, nj.data, nj.producerId, now, nj.md5Hash⟩] },
       []) := by
  unfold VideoQueue.enqueue
  rw [hf]
  simp [hw]

/-- C6: re-queuing a DLQ entry removes it from the DLQ exactly when the
bounded queue accepted the job, after which the job sits at the tail of
the queue (dequeue-able in FIFO order); any non-success outcome — entry
not found, or queue full at the time of the attempt — leaves both the
DLQ and the queue unchanged, so no job is lost between the two
stores. -/
theorem claimC6_dlq_requeue (jobId : String) (dlq : List FailedJob)
    (q : VideoQueue) (freshId : String) (now : Nat) :
    ((retryDlqJob jobId dlq q freshId now).1.status ≠ 200 →
      (retryDlqJob jobId dlq q freshId now).2.1 = dlq ∧
      (retryDlqJob jobId dlq q freshId now).2.2.1 = q) ∧
    (q.isFull = true → (retryDlqJob jobId dlq q freshId now).1.status ≠ 200) ∧
    ((retryDlqJob jobId dlq q freshId now).1.status = 200 →
      ∃ f, dlq.find? (fun x => x.job.id == jobId) = some f ∧
        (retryDlqJob jobId dlq q freshId now).2.1 =
          (DeadLetterQueue.removeById dlq jobId).2 ∧
        (q.waiters = [] →
          (retryDlqJob jobId dlq q freshId now).2.2.1.queue = q.queue ++
            [⟨freshId, f.job.filename, f.job.data, f.job.producerId, now,
              f.job.md5Hash⟩])) := by
  unfold retryDlqJob
  cases hfind : dlq.find? (fun f => f.job.id == jobId) with
  | none =>
    exact ⟨fun _ => ⟨rfl, rfl⟩, fun _ h => by simp at h,
      fun h => absurd h (by simp)⟩
  | some f =>
    dsimp only
    by_cases hful : q.isFull = true
    · rw [if_pos hful]
      exact ⟨fun _ => ⟨rfl, rfl⟩, fun _ h => by simp at h,
        fun h => absurd h (by simp)⟩
    · rw [if_neg hful]
      have hf0 : q.isFull = false := by simpa using hful
      have hadd : (q.enqueue
          ⟨f.job.filename, f.job.data, f.job.producerId, f.job.md5Hash⟩
          freshId now).1 = true := by
        rw [enqueue_fst, hf0]
        rfl
      rcases hq : q.enqueue
          ⟨f.job.filename, f.job.data, f.job.producerId, f.job.md5Hash⟩
          freshId now with ⟨added, q1, res⟩
      rw [hq] at hadd
      simp only at hadd
      subst hadd
      rw [if_pos (show (true, q1, res).1 = true from rfl)]
      refine ⟨fun h => absurd rfl h, fun hc => absurd hc hful, fun _ => ⟨f, rfl, rfl, ?_⟩⟩
      intro hw
      have := enqueue_not_full_no_waiters q
        ⟨f.job.filename, f.job.data, f.job.producerId, f.job.md5Hash⟩
        freshId now hf0 hw
      rw [hq] at this
      have hq1 : q1 = { q with queue := q.queue ++
          [⟨freshId, f.job.filename, f.job.data, f.job.producerId, now,
            f.job.md5Hash⟩] } := by
        exact congrArg (fun t => t.2.1) this
      simp [hq1]

/-- Dropping every binding of key `p` does not change what a lookup of
a different key finds. -/
theorem find?_filter_key_ne {α : Type} (l : List (String × α))
    (p p2 : String) (h : p2 ≠ p) :
    ((l.filter fun e => !(e.1 == p)).find? fun e => e.1 == p2) =
      l.find? fun e => e.1 == p2 := by
  induction l with
  | nil => rfl
  | cons e es ih =>
    by_cases hp : (e.1 == p) = true
    · have hp2 : ¬ (e.1 == p2) = true := by
        simp only [beq_iff_eq] at hp ⊢
        rw [hp]
        exact fun hh => h hh.symm
      rw [List.filter_cons_of_neg (by simp [hp]),
        List.find?_cons_of_neg (p := fun e : String × α => e.1 == p2) _ hp2, ih]
    · rw [List.filter_cons_of_pos (by simp [hp])]
      by_cases hq : (e.1 == p2) = true
      · rw [List.find?_cons_of_pos (p := fun e : String × α => e.1 == p2) _ hq,
          List.find?_cons_of_pos (p := fun e : String × α => e.1 == p2) _ hq]
      · rw [List.find?_cons_of_neg (p := fun e : String × α => e.1 == p2) _ hq,
          List.find?_cons_of_neg (p := fun e : String × α => e.1 == p2) _ hq, ih]

/-- Looking up any path after a `write` to `p`: the written bytes at
`p`, the old contents elsewhere. -/
theorem FS.lookup_write (fs : FS) (p p2 : String) (bs : Bytes) :
    FS.lookup (FS.write fs p bs) p2 =
      if p2 = p then some bs else FS.lookup fs p2 := by
  unfold FS.write FS.lookup FS.erase
  by_cases h : p2 = p
  · subst h
    rw [List.find?_cons_of_pos _ (by simp)]
    simp
  · rw [List.find?_cons_of_neg _ (by simp; exact fun hh => h hh.symm),
      find?_filter_key_ne fs p p2 h, if_neg h]

/-- Looking up any path after an `erase` of `p`: gone at `p`, the old
contents elsewhere. -/
theorem FS.lookup_erase (fs : FS) (p p2 : String) :
    FS.lookup (FS.erase fs p) p2 =
      if p2 = p then none else FS.lookup fs p2 := by
  unfold FS.lookup FS.erase
  by_cases h : p2 = p
  · subst h
    rw [if_pos rfl]
    rw [List.find?_eq_none.mpr]
    · rfl
    · intro x hx
      have := (List.mem_filter.mp hx).2
      simpa using this
  · rw [find?_filter_key_ne fs p p2 h, if_neg h]

/-- Appending the `.tmp` suffix always yields a different path. -/
theorem append_tmp_ne (s : String) : s ++ ".tmp" ≠ s := by
  intro h
  have hlen := congrArg String.length h
  rw [String.length_append] at hlen
  have h4 : (".tmp" : String).length = 4 := rfl
  omega

/-- C2 counterexample: a run in which the write lands intact and the
size check passes but the rename step fails returns an error result and
leaves the temporary file on disk — `saveVideo` removes the temporary
file only when validation fails, not on any failure. -/
theorem claimC2_counterexample :
    ((saveVideo [] ⟨some [1, 2], false⟩ "up" [1, 2] "abcd1234-id" "v.mp4"
        7).1.success = false) ∧
    FS.existsSync
      (saveVideo [] ⟨some [1, 2], false⟩ "up" [1, 2] "abcd1234-id" "v.mp4" 7).2
      (finalPathOf "up" "abcd1234-id" "v.mp4" 7 ++ ".tmp") = true := by
  constructor
  · rfl
  · decide

/-- C2 (amended): `saveVideo` writes the payload to the temporary path
(final path plus `.tmp`), verifies the written size equals the input
length, then renames to the final path. On a validation failure it
removes the temporary file and returns an error; on a write or rename
failure it returns an error but leaves any temporary file in place; in
every failure case the final path is never created. -/
theorem claimC2_atomic_save (fs : FS) (beh : WriteBehavior)
    (uploadDir : String) (videoData : Bytes) (videoId origFilename : String)
    (now : Nat)
    (hfin : FS.lookup fs (finalPathOf uploadDir videoId origFilename now) =
      none) :
    (beh.writeOutcome = none →
      (saveVideo fs beh uploadDir videoData videoId origFilename now).1.success
          = false ∧
      (saveVideo fs beh uploadDir videoData videoId origFilename now).2 = fs) ∧
    (∀ w, beh.writeOutcome = some w → w.length ≠ videoData.length →
      (saveVideo fs beh uploadDir videoData videoId origFilename now).1.success
          = false ∧
      FS.lookup
        (saveVideo fs beh uploadDir videoData videoId origFilename now).2
        (finalPathOf uploadDir videoId origFilename now ++ ".tmp") = none) ∧
    (∀ w, beh.writeOutcome = some w → w.length = videoData.length →
        beh.renameOk = false →
      (saveVideo fs beh uploadDir videoData videoId origFilename now).1.success
          = false ∧
      FS.lookup
        (saveVideo fs beh uploadDir videoData videoId origFilename now).2
        (finalPathOf uploadDir videoId origFilename now ++ ".tmp") = some w) ∧
    (beh.writeOutcome = some videoData → beh.renameOk = true →
      (saveVideo fs beh uploadDir videoData videoId origFilename now).1.success
          = true ∧
      (saveVideo fs beh uploadDir videoData videoId origFilename now).1.filepath
          = finalPathOf uploadDir videoId origFilename now ∧
      FS.lookup
        (saveVideo fs beh uploadDir videoData videoId origFilename now).2
        (finalPathOf uploadDir videoId origFilename now) = some videoData ∧
      FS.lookup
        (saveVideo fs beh uploadDir videoData videoId origFilename now).2
        (finalPathOf uploadDir videoId origFilename now ++ ".tmp") = none) ∧
    ((saveVideo fs beh uploadDir videoData videoId origFilename now).1.success
        = false →
      FS.lookup
        (saveVideo fs beh uploadDir videoData videoId origFilename now).2
        (finalPathOf uploadDir videoId origFilename now) = none) := by
  have hne : finalPathOf uploadDir videoId origFilename now ++ ".tmp" ≠
      finalPathOf uploadDir videoId origFilename now :=
    append_tmp_ne _
  have hne2 : finalPathOf uploadDir videoId origFilename now ≠
      finalPathOf uploadDir videoId origFilename now ++ ".tmp" :=
    fun hh => hne hh.symm
  unfold saveVideo
  cases hw : beh.writeOutcome with
  | none =>
    dsimp only
    refine ⟨fun _ => ⟨rfl, rfl⟩, ?_, ?_, ?_, fun _ => hfin⟩
    · intro w hww
      cases hww
    · intro w hww
      cases hww
    · intro hww
      cases hww
  | some w =>
    dsimp only
    have hval : validateFile
        (FS.write fs (finalPathOf uploadDir videoId origFilename now ++ ".tmp") w)
        (finalPathOf uploadDir videoId origFilename now ++ ".tmp")
        videoData.length = (w.length == videoData.length) := by
      unfold validateFile
      rw [FS.lookup_write, if_pos rfl]
    rw [hval]
    by_cases hlen : w.length = videoData.length
    · rw [if_pos (by simpa using hlen)]
      cases hro : beh.renameOk with
      | true =>
        rw [if_pos rfl]
        have hren : FS.rename
            (FS.write fs (finalPathOf uploadDir videoId origFilename now ++ ".tmp") w)
            (finalPathOf uploadDir videoId origFilename now ++ ".tmp")
            (finalPathOf uploadDir videoId origFilename now) =
            FS.write
              (FS.erase
                (FS.write fs (finalPathOf uploadDir videoId origFilename now ++ ".tmp") w)
                (finalPathOf uploadDir videoId origFilename now ++ ".tmp"))
              (finalPathOf uploadDir videoId origFilename now) w := by
          unfold FS.rename
          rw [FS.lookup_write, if_pos rfl]
        refine ⟨?_, ?_, ?_, ?_, ?_⟩
        · intro hww
          cases hww
        · intro w2 hww hww2
          injection hww with hww
          subst hww
          exact absurd hlen hww2
        · intro w2 hww hww2 hro2
          cases hro2
        · intro hww _
          injection hww with hww
          subst hww
          refine ⟨rfl, rfl, ?_, ?_⟩
          · rw [hren, FS.lookup_write, if_pos rfl]
          · rw [hren, FS.lookup_write, if_neg hne, FS.lookup_erase, if_pos rfl]
        · intro hs
          cases hs
      | false =>
        rw [if_neg (by simp)]
        refine ⟨?_, ?_, ?_, ?_, ?_⟩
        · intro hww
          cases hww
        · intro w2 hww hww2
          injection hww with hww
          subst hww
          exact absurd hlen hww2
        · intro w2 hww _ _
          injection hww with hww
          subst hww
          exact ⟨rfl, by rw [FS.lookup_write, if_pos rfl]⟩
        · intro _ hro2
          cases hro2
        · intro _
          rw [FS.lookup_write, if_neg hne2]
          exact hfin
    · rw [if_neg (by simpa using hlen)]
      refine ⟨?_, ?_, ?_, ?_, ?_⟩
      · intro hww
        cases hww
      · intro w2 hww _
        injection hww with hww
        subst hww
        exact ⟨rfl, by rw [FS.lookup_erase, if_pos rfl]⟩
      · intro w2 hww hww2 _
        injection hww with hww
        subst hww
        exact absurd hww2 hlen
      · intro hww _
        injection hww with hww
        subst hww
        exact absurd rfl hlen
      · intro _
        rw [FS.lookup_erase, if_neg hne2, FS.lookup_write, if_neg hne2]
        exact hfin

/-- C2 witness: the amended save guarantees evaluated on an empty
filesystem with an intact write and a successful rename. -/
theorem claimC2_atomic_save_witness :
    ((⟨some [1, 2], true⟩ : WriteBehavior).writeOutcome = none →
      (saveVideo [] ⟨some [1, 2], true⟩ "up" [1, 2] "abcd1234-id" "v.mp4"
          7).1.success = false ∧
      (saveVideo [] ⟨some [1, 2], true⟩ "up" [1, 2] "abcd1234-id" "v.mp4"
          7).2 = []) ∧
    (∀ w, (⟨some [1, 2], true⟩ : WriteBehavior).writeOutcome = some w →
        w.length ≠ ([1, 2] : Bytes).length →
      (saveVideo [] ⟨some [1, 2], true⟩ "up" [1, 2] "abcd1234-id" "v.mp4"
          7).1.success = false ∧
      FS.lookup
        (saveVideo [] ⟨some [1, 2], true⟩ "up" [1, 2] "abcd1234-id" "v.mp4" 7).2
        (finalPathOf "up" "abcd1234-id" "v.mp4" 7 ++ ".tmp") = none) ∧
    (∀ w, (⟨some [1, 2], true⟩ : WriteBehavior).writeOutcome = some w →
        w.length = ([1, 2] : Bytes).length →
        (⟨some [1, 2], true⟩ : WriteBehavior).renameOk = false →
      (saveVideo [] ⟨some [1, 2], true⟩ "up" [1, 2] "abcd1234-id" "v.mp4"
          7).1.success = false ∧
      FS.lookup
        (saveVideo [] ⟨some [1, 2], true⟩ "up" [1, 2] "abcd1234-id" "v.mp4" 7).2
        (finalPathOf "up" "abcd1234-id" "v.mp4" 7 ++ ".tmp") = some w) ∧
    ((⟨some [1, 2], true⟩ : WriteBehavior).writeOutcome = some [1, 2] →
        (⟨some [1, 2], true⟩ : WriteBehavior).renameOk = true →
      (saveVideo [] ⟨some [1, 2], true⟩ "up" [1, 2] "abcd1234-id" "v.mp4"
          7).1.success = true ∧
      (saveVideo [] ⟨some [1, 2], true⟩ "up" [1, 2] "abcd1234-id" "v.mp4"
          7).1.filepath = finalPathOf "up" "abcd1234-id" "v.mp4" 7 ∧
      FS.lookup
        (saveVideo [] ⟨some [1, 2], true⟩ "up" [1, 2] "abcd1234-id" "v.mp4" 7).2
        (finalPathOf "up" "abcd1234-id" "v.mp4" 7) = some [1, 2] ∧
      FS.lookup
        (saveVideo [] ⟨some [1, 2], true⟩ "up" [1, 2] "abcd1234-id" "v.mp4" 7).2
        (finalPathOf "up" "abcd1234-id" "v.mp4" 7 ++ ".tmp") = none) ∧
    ((saveVideo [] ⟨some [1, 2], true⟩ "up" [1, 2] "abcd1234-id" "v.mp4"
          7).1.success = false →
      FS.lookup
        (saveVideo [] ⟨some [1, 2], true⟩ "up" [1, 2] "abcd1234-id" "v.mp4" 7).2
        (finalPathOf "up" "abcd1234-id" "v.mp4" 7) = none) :=
  claimC2_atomic_save [] ⟨some [1, 2], true⟩ "up" [1, 2] "abcd1234-id"
    "v.mp4" 7 rfl

/-- An unknown hash is no duplicate, and the registry is untouched. -/
theorem isDuplicate_none (fsE : String → Bool) (reg : Registry)
    (hash : String) (hnone : Registry.getEntry reg hash = none) :
    Registry.isDuplicate fsE reg hash = (false, reg) := by
  unfold Registry.isDuplicate
  rw [hnone]

/-- Registering a hash makes it immediately visible to lookups. -/
theorem getEntry_set (reg : Registry) (hash : String) (e : VideoEntry) :
    Registry.getEntry (Registry.set reg hash e) hash = some e := by
  unfold Registry.getEntry Registry.set
  rw [List.find?_cons_of_pos _ (by simp)]
  rfl

/-- A declared hash that matches the content but is already registered
with the placeholder path is rejected with the original filename and
upload time, and neither the registry nor the queue changes. -/
theorem uploadDupReject (st : UploadState) (reg : Registry) (q : VideoQueue)
    (fsE : String → Bool) (fmtTime : Nat → String) (freshId : String)
    (now regNow : Nat) (e : VideoEntry)
    (hh : st.expectedHash ≠ "")
    (hmatch : md5Hex st.chunks.flatten = st.expectedHash)
    (he : Registry.getEntry reg st.expectedHash = some e)
    (hp : e.path = "pending") :
    uploadVideoEnd st reg q fsE fmtTime freshId now regNow =
      (⟨false, "Duplicate video detected. Original file: " ++ e.filename ++
        " (uploaded at " ++ fmtTime e.uploadedAt ++ ")", "", false⟩,
       reg, q, []) := by
  unfold uploadVideoEnd
  rw [if_pos hh]
  dsimp only
  rw [if_neg (fun hx => hx hmatch)]
  rw [isDuplicate_pending fsE reg st.expectedHash e he hp]
  dsimp only
  rw [if_pos rfl, he]

/-- A matching, unregistered hash on a non-full queue with no waiters:
the job is appended, the hash registered with the placeholder path, and
the reply is success with the provisional id. -/
theorem uploadNewAccept (st : UploadState) (reg : Registry) (q : VideoQueue)
    (fsE : String → Bool) (fmtTime : Nat → String) (freshId : String)
    (now regNow : Nat)
    (hh : st.expectedHash ≠ "")
    (hmatch : md5Hex st.chunks.flatten = st.expectedHash)
    (hnone : Registry.getEntry reg st.expectedHash = none)
    (hfull : q.isFull = false) (hw : q.waiters = []) :
    uploadVideoEnd st reg q fsE fmtTime freshId now regNow =
      (⟨true, "Video queued successfully", "pending", false⟩,
       Registry.set reg st.expectedHash
         ⟨st.filename, regNow, "pending", st.producerId⟩,
       { q with queue := q.queue ++
          [⟨freshId, st.filename, st.chunks.flatten, st.producerId, now,
            some st.expectedHash⟩] },
       []) := by
  unfold uploadVideoEnd
  rw [if_pos hh]
  dsimp only
  rw [if_neg (fun hx => hx hmatch)]
  rw [isDuplicate_none fsE reg st.expectedHash hnone]
  dsimp only
  rw [if_neg (by simp)]
  unfold uploadEnqueue
  dsimp only
  rw [enqueue_not_full_no_waiters q _ freshId now hfull hw]
  dsimp only
  rw [if_neg (by simp), if_pos hh, if_pos hh]
  rfl

/-- C3: when a hash is declared and the MD5 of the reassembled buffer
differs from it, the upload is rejected with `success = false` and the
mismatch message, nothing is enqueued and the registry is untouched;
and reassembling the chunks `"He"`, `"llo"` with declared hash equal to
MD5 of `"Hello"` is accepted. -/
theorem claimC3_integrity (st : UploadState) (reg : Registry)
    (q : VideoQueue) (fsE : String → Bool) (fmtTime : Nat → String)
    (freshId : String) (now regNow : Nat)
    (hh : st.expectedHash ≠ "")
    (hmm : md5Hex st.chunks.flatten ≠ st.expectedHash) :
    uploadVideoEnd st reg q fsE fmtTime freshId now regNow =
      (⟨false, "Data integrity check failed: MD5 hash mismatch", "", false⟩,
       reg, q, []) ∧
    md5Hex (strBytes "Hello") = "8b1a9953c4611296a827abf8c47804d7" ∧
    (uploadVideoEnd
      ⟨[strBytes "He", strBytes "llo"], "hello.mp4", 1,
        "8b1a9953c4611296a827abf8c47804d7"⟩
      [] (VideoQueue.mk0 10) (fun _ => false) (fun _ => "") "id-1" 5
      6).1.success = true := by
  refine ⟨?_, by decide, by decide⟩
  unfold uploadVideoEnd
  rw [if_pos hh]
  dsimp only
  rw [if_pos hmm]

/-- C4: an upload whose declared, content-matching hash is already
registered (placeholder entry) is rejected with a message citing the
original filename and upload time, without enqueueing; an upload with a
new hash is accepted, its hash is registered with the placeholder path,
and a second upload of the same content then sees `is_duplicate = true`
and is rejected without enqueueing. -/
theorem claimC4_dedup (st : UploadState) (reg : Registry) (q : VideoQueue)
    (fsE fsE2 : String → Bool) (fmtTime : Nat → String)
    (freshId freshId2 : String) (now now2 regNow regNow2 : Nat)
    (e : VideoEntry)
    (hh : st.expectedHash ≠ "")
    (hmatch : md5Hex st.chunks.flatten = st.expectedHash) :
    (Registry.getEntry reg st.expectedHash = some e → e.path = "pending" →
      uploadVideoEnd st reg q fsE fmtTime freshId now regNow =
        (⟨false, "Duplicate video detected. Original file: " ++ e.filename ++
          " (uploaded at " ++ fmtTime e.uploadedAt ++ ")", "", false⟩,
         reg, q, [])) ∧
    (Registry.getEntry reg st.expectedHash = none → q.isFull = false →
      q.waiters = [] →
      (uploadVideoEnd st reg q fsE fmtTime freshId now regNow).1.success =
        true ∧
      Registry.getEntry
        (uploadVideoEnd st reg q fsE fmtTime freshId now regNow).2.1
        st.expectedHash =
        some ⟨st.filename, regNow, "pending", st.producerId⟩ ∧
      (Registry.isDuplicate fsE2
        (uploadVideoEnd st reg q fsE fmtTime freshId now regNow).2.1
        st.expectedHash).1 = true ∧
      uploadVideoEnd st
          (uploadVideoEnd st reg q fsE fmtTime freshId now regNow).2.1
          (uploadVideoEnd st reg q fsE fmtTime freshId now regNow).2.2.1
          fsE2 fmtTime freshId2 now2 regNow2 =
        (⟨false, "Duplicate video detected. Original file: " ++ st.filename ++
          " (uploaded at " ++ fmtTime regNow ++ ")", "", false⟩,
         (uploadVideoEnd st reg q fsE fmtTime freshId now regNow).2.1,
         (uploadVideoEnd st reg q fsE fmtTime freshId now regNow).2.2.1,
         [])) := by
  constructor
  · intro he hp
    exact uploadDupReject st reg q fsE fmtTime freshId now regNow e hh hmatch
      he hp
  · intro hnone hfull hw
    have hacc := uploadNewAccept st reg q fsE fmtTime freshId now regNow hh
      hmatch hnone hfull hw
    rw [hacc]
    have hget : Registry.getEntry
        (Registry.set reg st.expectedHash
          ⟨st.filename, regNow, "pending", st.producerId⟩)
        st.expectedHash =
        some ⟨st.filename, regNow, "pending", st.producerId⟩ :=
      getEntry_set reg st.expectedHash _
    refine ⟨rfl, hget, ?_, ?_⟩
    · rw [isDuplicate_pending fsE2 _ st.expectedHash _ hget rfl]
    · exact uploadDupReject st _ _ fsE2 fmtTime freshId2 now2 regNow2
        ⟨st.filename, regNow, "pending", st.producerId⟩ hh hmatch hget rfl

/-- C3 witness: the rejection guarantee evaluated at a concrete upload
whose declared hash does not match the reassembled content. -/
theorem claimC3_integrity_witness :
    uploadVideoEnd
      ⟨[strBytes "He", strBytes "llo"], "v.mp4", 2,
        "00000000000000000000000000000000"⟩
      [] (VideoQueue.mk0 3) (fun _ => true) (fun _ => "t") "id-9" 1 2 =
      (⟨false, "Data integrity check failed: MD5 hash mismatch", "", false⟩,
       [], VideoQueue.mk0 3, []) ∧
    md5Hex (strBytes "Hello") = "8b1a9953c4611296a827abf8c47804d7" ∧
    (uploadVideoEnd
      ⟨[strBytes "He", strBytes "llo"], "hello.mp4", 1,
        "8b1a9953c4611296a827abf8c47804d7"⟩
      [] (VideoQueue.mk0 10) (fun _ => false) (fun _ => "") "id-1" 5
      6).1.success = true :=
  claimC3_integrity
    ⟨[strBytes "He", strBytes "llo"], "v.mp4", 2,
      "00000000000000000000000000000000"⟩
    [] (VideoQueue.mk0 3) (fun _ => true) (fun _ => "t") "id-9" 1 2
    (by decide) (by decide)

/-- C4 witness: the dedup guarantees evaluated at a concrete upload of
the `"Hello"` payload with its true MD5 declared. -/
theorem claimC4_dedup_witness :
    (Registry.getEntry [] "8b1a9953c4611296a827abf8c47804d7" =
        some ⟨"v.mp4", 9, "pending", 3⟩ →
      (⟨"v.mp4", 9, "pending", 3⟩ : VideoEntry).path = "pending" →
      uploadVideoEnd
        ⟨[strBytes "Hello"], "v.mp4", 3, "8b1a9953c4611296a827abf8c47804d7"⟩
        [] (VideoQueue.mk0 4) (fun _ => true) (fun _ => "t") "id-1" 1 2 =
        (⟨false, "Duplicate video detected. Original file: " ++
          (⟨"v.mp4", 9, "pending", 3⟩ : VideoEntry).filename ++
          " (uploaded at " ++ (fun _ : Nat => "t")
            (⟨"v.mp4", 9, "pending", 3⟩ : VideoEntry).uploadedAt ++ ")",
          "", false⟩,
         [], VideoQueue.mk0 4, [])) ∧
    (Registry.getEntry [] "8b1a9953c4611296a827abf8c47804d7" = none →
      (VideoQueue.mk0 4).isFull = false →
      (VideoQueue.mk0 4).waiters = [] →
      (uploadVideoEnd
        ⟨[strBytes "Hello"], "v.mp4", 3, "8b1a9953c4611296a827abf8c47804d7"⟩
        [] (VideoQueue.mk0 4) (fun _ => true) (fun _ => "t") "id-1" 1
        2).1.success = true ∧
      Registry.getEntry
        (uploadVideoEnd
          ⟨[strBytes "Hello"], "v.mp4", 3, "8b1a9953c4611296a827abf8c47804d7"⟩
          [] (VideoQueue.mk0 4) (fun _ => true) (fun _ => "t") "id-1" 1 2).2.1
        "8b1a9953c4611296a827abf8c47804d7" =
        some ⟨"v.mp4", 2, "pending", 3⟩ ∧
      (Registry.isDuplicate (fun _ => false)
        (uploadVideoEnd
          ⟨[strBytes "Hello"], "v.mp4", 3, "8b1a9953c4611296a827abf8c47804d7"⟩
          [] (VideoQueue.mk0 4) (fun _ => true) (fun _ => "t") "id-1" 1 2).2.1
        "8b1a9953c4611296a827abf8c47804d7").1 = true ∧
      uploadVideoEnd
        ⟨[strBytes "Hello"], "v.mp4", 3, "8b1a9953c4611296a827abf8c47804d7"⟩
        (uploadVideoEnd
          ⟨[strBytes "Hello"], "v.mp4", 3, "8b1a9953c4611296a827abf8c47804d7"⟩
          [] (VideoQueue.mk0 4) (fun _ => true) (fun _ => "t") "id-1" 1 2).2.1
        (uploadVideoEnd
          ⟨[strBytes "Hello"], "v.mp4", 3, "8b1a9953c4611296a827abf8c47804d7"⟩
          [] (VideoQueue.mk0 4) (fun _ => true) (fun _ => "t") "id-1" 1
          2).2.2.1
        (fun _ => false) (fun _ => "t") "id-2" 7 8 =
        (⟨false, "Duplicate video detected. Original file: " ++ "v.mp4" ++
          " (uploaded at " ++ (fun _ : Nat => "t") 2 ++ ")", "", false⟩,
         (uploadVideoEnd
           ⟨[strBytes "Hello"], "v.mp4", 3, "8b1a9953c4611296a827abf8c47804d7"⟩
           [] (VideoQueue.mk0 4) (fun _ => true) (fun _ => "t") "id-1" 1 2).2.1,
         (uploadVideoEnd
           ⟨[strBytes "Hello"], "v.mp4", 3, "8b1a9953c4611296a827abf8c47804d7"⟩
           [] (VideoQueue.mk0 4) (fun _ => true) (fun _ => "t") "id-1" 1
           2).2.2.1,
         [])) :=
  claimC4_dedup
    ⟨[strBytes "Hello"], "v.mp4", 3, "8b1a9953c4611296a827abf8c47804d7"⟩
    [] (VideoQueue.mk0 4) (fun _ => true) (fun _ => false) (fun _ => "t")
    "id-1" "id-2" 1 7 2 8 ⟨"v.mp4", 9, "pending", 3⟩
    (by decide) (by decide)

end MediaUpload
